import Mathlib

/-!
Verification of the js-joda augmentation layer.

The repository has two pieces:
* an extrema selector (`maxOf` / `minOf`) over values exposing a three-way
  `compareTo`;
* a capability patcher (`custom.js`: `addComparable`, `addComparableEx`,
  `addEpochSecond`, `initCustom`) that attaches derived comparison predicates
  and an `ofEpochSecond` factory helper onto a fixed set of value types.

The patcher mutates per-type prototype tables; we embed a prototype table as a
record of optional method slots, the collection of all patched classes as a
`CoreState` record, and `initCustom` as a pure state transformer mirroring the
source line by line.  JavaScript numbers returned by `compareTo` are embedded
as `Int`.
-/

namespace JsJoda

variable {α : Type}

/-- Error classes of the library relevant here (`IllegalArgumentException`
is declared in the typings at src/unnamed/part_000 line 2466). -/
inductive JsError where
  | illegalArgumentException
  | dateTimeException
  deriving DecidableEq, Repr

/-- Modelled from the spec: the JavaScript implementation of `maxOf` is not
under src/ (only its TypeScript declaration `maxOf<T extends Comparable<T>>(...args: T[]): T`
and the MinMax tests are).  Per the spec: a single linear scan maintaining a
running best candidate, replacing the running best only on a strict
improvement (strictly greater for max), which yields first-of-ties-wins; a
call with zero arguments fails with an `IllegalArgument`-class error.  The
variadic argument list is embedded as a `List`, the value type's
`compareTo` as an explicit comparator argument. -/
def maxOf (cmp : α → α → Int) : List α → Except JsError α
  | [] => Except.error JsError.illegalArgumentException
  | x :: xs => Except.ok (xs.foldl (fun best v => if 0 < cmp v best then v else best) x)

/-- Modelled from the spec: the JavaScript implementation of `minOf` is not
under src/ (only its TypeScript declaration and the MinMax tests are).
Symmetric to `maxOf`: the running best is replaced only when the new element
compares strictly less; zero arguments fail with an `IllegalArgument`-class
error. -/
def minOf (cmp : α → α → Int) : List α → Except JsError α
  | [] => Except.error JsError.illegalArgumentException
  | x :: xs => Except.ok (xs.foldl (fun best v => if cmp v best < 0 then v else best) x)

/-- The spec's contract on the wrapped library's `compareTo`: standard
three-way semantics defining a total order.  Expressed by two laws: the sign
of `cmp x y` is opposite to the sign of `cmp y x`, and dominance
(`0 ≤ cmp · ·`) is transitive.  Totality and reflexivity follow. -/
def LawfulCmp (cmp : α → α → Int) : Prop :=
  (∀ x y, 0 ≤ cmp x y ↔ cmp y x ≤ 0) ∧
  (∀ x y z, 0 ≤ cmp x y → 0 ≤ cmp y z → 0 ≤ cmp x z)

/-- The prototype table of a patched value type: its pre-existing
`compareTo`, and the three optional derived predicate slots the patcher may
fill (a slot is `none` when the method is absent from the prototype). -/
structure ProtoTable (α : Type) where
  compareTo : α → α → Int
  isEqual : Option (α → α → Bool)
  isEqualOrAfter : Option (α → α → Bool)
  isEqualOrBefore : Option (α → α → Bool)

/-- A constructor/factory of a temporal type built from instants: its
prototype table, the wrapped library's static `ofInstant(instant, zoneId)`,
and the optional static `ofEpochSecond` slot the patcher may fill. -/
structure TemporalClass (Inst Zone α : Type) where
  proto : ProtoTable α
  ofInstant : Inst → Zone → α
  ofEpochSecond : Option (Int → Zone → α)

/-- `addComparable(constructor)`: installs
`isEqual(other) := this.compareTo(other) === 0` on the prototype. -/
def addComparable (p : ProtoTable α) : ProtoTable α :=
  { p with isEqual := some (fun this other => decide (p.compareTo this other = 0)) }

/-- `addComparableEx(constructor, skip = false)`: unless `skip`, installs
`isEqual` via `addComparable`; always installs
`isEqualOrAfter(other) := this.compareTo(other) >= 0` and
`isEqualOrBefore(other) := this.compareTo(other) <= 0`. -/
def addComparableEx (p : ProtoTable α) (skip : Bool) : ProtoTable α :=
  let p1 := if skip then p else addComparable p
  { p1 with
    isEqualOrAfter := some (fun this other => decide (0 ≤ p1.compareTo this other))
    isEqualOrBefore := some (fun this other => decide (p1.compareTo this other ≤ 0)) }

/-- The free function `ofEpochSecond(constructor, epochSecond, zoneId)`:
`constructor.ofInstant(Instant.ofEpochSecond(epochSecond), zoneId)`.
`instantOfEpochSecond` stands for the wrapped library's static
`Instant.ofEpochSecond`. -/
def ofEpochSecond (instantOfEpochSecond : Int → Inst)
    (c : TemporalClass Inst Zone α) (epochSecond : Int) (zoneId : Zone) : α :=
  c.ofInstant (instantOfEpochSecond epochSecond) zoneId

/-- `addEpochSecond(constructor)`: installs the static
`ofEpochSecond(epochSecond, zoneId)` delegating to the free function. -/
def addEpochSecond (instantOfEpochSecond : Int → Inst)
    (c : TemporalClass Inst Zone α) : TemporalClass Inst Zone α :=
  { c with ofEpochSecond := some (fun epochSecond zoneId =>
      ofEpochSecond instantOfEpochSecond c epochSecond zoneId) }

/-- The instance types of the seventeen imported classes of `custom.js`,
kept abstract: the wrapped library is a black box. -/
structure CoreTypes where
  Inst : Type
  Zone : Type
  LD : Type
  LDT : Type
  LT : Type
  ZDT : Type
  CU : Type
  DU : Type
  ZO : Type
  DW : Type
  MO : Type
  ZOT : Type
  MD : Type
  YR : Type
  YM : Type
  ODT : Type
  OT : Type
  CZ : Type

/-- The process-wide state `initCustom` mutates: one behavior table per
imported class, plus the wrapped library's static `Instant.ofEpochSecond`. -/
structure CoreState (T : CoreTypes) where
  instantOfEpochSecond : Int → T.Inst
  instant : ProtoTable T.Inst
  localDate : TemporalClass T.Inst T.Zone T.LD
  localDateTime : TemporalClass T.Inst T.Zone T.LDT
  localTime : TemporalClass T.Inst T.Zone T.LT
  zonedDateTime : TemporalClass T.Inst T.Zone T.ZDT
  chronoUnit : ProtoTable T.CU
  duration : ProtoTable T.DU
  zoneOffset : ProtoTable T.ZO
  dayOfWeek : ProtoTable T.DW
  month : ProtoTable T.MO
  zoneOffsetTransition : ProtoTable T.ZOT
  monthDay : ProtoTable T.MD
  year : ProtoTable T.YR
  yearMonth : ProtoTable T.YM
  offsetDateTime : ProtoTable T.ODT
  offsetTime : ProtoTable T.OT
  chronoZonedDateTime : ProtoTable T.CZ

/-- `initCustom()`: the installation routine of `custom.js`, line by line.
`addEpochSecond` is applied to LocalDate, LocalTime and ZonedDateTime but
deliberately NOT to LocalDateTime (its own `ofEpochSecond` is used
internally); `addComparable` to ChronoUnit, Duration, ZoneOffset, DayOfWeek,
Month and ZoneOffsetTransition; `addComparableEx` to Instant, LocalDate,
LocalDateTime, LocalTime, MonthDay, Year and YearMonth, and with
`skip = true` to OffsetDateTime, OffsetTime and ChronoZonedDateTime. -/
def initCustom (s : CoreState T) : CoreState T :=
  let s := { s with localDate := addEpochSecond s.instantOfEpochSecond s.localDate }
  let s := { s with localTime := addEpochSecond s.instantOfEpochSecond s.localTime }
  let s := { s with zonedDateTime := addEpochSecond s.instantOfEpochSecond s.zonedDateTime }
  let s := { s with chronoUnit := addComparable s.chronoUnit }
  let s := { s with duration := addComparable s.duration }
  let s := { s with zoneOffset := addComparable s.zoneOffset }
  let s := { s with dayOfWeek := addComparable s.dayOfWeek }
  let s := { s with month := addComparable s.month }
  let s := { s with zoneOffsetTransition := addComparable s.zoneOffsetTransition }
  let s := { s with instant := addComparableEx s.instant false }
  let s := { s with localDate := { s.localDate with proto := addComparableEx s.localDate.proto false } }
  let s := { s with localDateTime := { s.localDateTime with proto := addComparableEx s.localDateTime.proto false } }
  let s := { s with localTime := { s.localTime with proto := addComparableEx s.localTime.proto false } }
  let s := { s with monthDay := addComparableEx s.monthDay false }
  let s := { s with year := addComparableEx s.year false }
  let s := { s with yearMonth := addComparableEx s.yearMonth false }
  let s := { s with offsetDateTime := addComparableEx s.offsetDateTime true }
  let s := { s with offsetTime := addComparableEx s.offsetTime true }
  let s := { s with chronoZonedDateTime := addComparableEx s.chronoZonedDateTime true }
  s

/-- An installed `isEqual` slot agreeing with `compareTo(other) === 0`. -/
def isEqualLaw (p : ProtoTable α) : Prop :=
  ∃ f, p.isEqual = some f ∧ ∀ x y, f x y = true ↔ p.compareTo x y = 0

/-- An installed `isEqualOrAfter` slot agreeing with `compareTo(other) >= 0`. -/
def isEqualOrAfterLaw (p : ProtoTable α) : Prop :=
  ∃ f, p.isEqualOrAfter = some f ∧ ∀ x y, f x y = true ↔ 0 ≤ p.compareTo x y

/-- An installed `isEqualOrBefore` slot agreeing with `compareTo(other) <= 0`. -/
def isEqualOrBeforeLaw (p : ProtoTable α) : Prop :=
  ∃ f, p.isEqualOrBefore = some f ∧ ∀ x y, f x y = true ↔ p.compareTo x y ≤ 0

/-- The running-best linear scan shared by `maxOf` and `minOf`: the fold
returns an element of the input that dominates every element, and every
element strictly before it in input order is strictly bettered by it
(first-of-ties-wins).  `better` is the strict-improvement test, `dom` the
reflexive dominance relation. -/
theorem foldBest_spec (better : α → α → Prop) [DecidableRel better]
    (dom : α → α → Prop)
    (hrefl : ∀ a, dom a a)
    (hnot : ∀ v b, ¬ better v b → dom b v)
    (hbd : ∀ v b, better v b → dom v b)
    (htrans : ∀ v b y, better v b → dom b y → better v y)
    (x : α) (xs : List α) :
    ∃ l1 l2,
      x :: xs = l1 ++ (xs.foldl (fun best v => if better v best then v else best) x) :: l2 ∧
      (∀ y ∈ x :: xs, dom (xs.foldl (fun best v => if better v best then v else best) x) y) ∧
      (∀ y ∈ l1, better (xs.foldl (fun best v => if better v best then v else best) x) y) := by
  induction xs using List.reverseRecOn with
  | nil =>
      refine ⟨[], [], rfl, ?_, by simp⟩
      intro y hy
      simp only [List.foldl_nil, List.mem_singleton] at hy ⊢
      subst hy
      exact hrefl _
  | append_singleton xs v ih =>
      obtain ⟨l1, l2, heq, hdom, hstrict⟩ := ih
      simp only [List.foldl_append, List.foldl_cons, List.foldl_nil] at *
      by_cases hb : better v (xs.foldl (fun best v => if better v best then v else best) x)
      · rw [if_pos hb]
        refine ⟨x :: xs, [], by simp, ?_, ?_⟩
        · intro y hy
          simp only [List.cons_append, List.mem_cons, List.mem_append] at hy
          rcases hy with rfl | hy | rfl | hy
          · exact hbd _ _ (htrans _ _ _ hb (hdom y (List.mem_cons_self y xs)))
          · exact hbd _ _ (htrans _ _ _ hb (hdom y (List.mem_cons_of_mem x hy)))
          · exact hrefl y
          · simp at hy
        · intro y hy
          exact htrans _ _ _ hb (hdom y hy)
      · rw [if_neg hb]
        refine ⟨l1, l2 ++ [v], ?_, ?_, hstrict⟩
        · rw [show x :: (xs ++ [v]) = (x :: xs) ++ [v] from rfl, heq]
          simp
        · intro y hy
          simp only [List.cons_append, List.mem_cons, List.mem_append] at hy
          rcases hy with rfl | hy | rfl | hy
          · exact hdom y (List.mem_cons_self y xs)
          · exact hdom y (List.mem_cons_of_mem x hy)
          · exact hnot _ _ hb
          · simp at hy

/-- Concrete comparator on pairs of integers for witnesses: it compares the
first component only, so elements that compare equal can still be
distinguished by the second component. -/
def pairCmp (x y : Int × Int) : Int := x.1 - y.1

theorem pairCmp_lawful : LawfulCmp pairCmp := by
  constructor
  · intro x y; simp only [pairCmp]; omega
  · intro x y z; simp only [pairCmp]; omega

/-- Reflexivity of a lawful comparator: `cmp a a = 0`. -/
theorem lawfulCmp_refl (cmp : α → α → Int) (hcmp : LawfulCmp cmp) (a : α) :
    cmp a a = 0 := by
  rcases hcmp.1 a a with ⟨h1, h2⟩
  by_cases hc : (0 : Int) ≤ cmp a a
  · have := h1 hc; omega
  · have := h2 (by omega); omega

/-- `foldBest_spec` instantiated with the `maxOf` scan: strict improvement is
`0 < cmp v best`, dominance is `0 ≤ cmp best y`. -/
theorem maxFold_spec (cmp : α → α → Int) (hcmp : LawfulCmp cmp)
    (x : α) (xs : List α) :
    ∃ l1 l2,
      x :: xs = l1 ++ (xs.foldl (fun best v => if 0 < cmp v best then v else best) x) :: l2 ∧
      (∀ y ∈ x :: xs,
        0 ≤ cmp (xs.foldl (fun best v => if 0 < cmp v best then v else best) x) y) ∧
      (∀ y ∈ l1,
        0 < cmp (xs.foldl (fun best v => if 0 < cmp v best then v else best) x) y) := by
  obtain ⟨hflip, htr⟩ := hcmp
  refine foldBest_spec (fun v b => 0 < cmp v b) (fun b v => 0 ≤ cmp b v) ?_ ?_ ?_ ?_ x xs
  · intro a
    exact le_of_eq (lawfulCmp_refl cmp ⟨hflip, htr⟩ a).symm
  · intro v b h
    exact (hflip b v).mpr (by omega)
  · intro v b h
    exact le_of_lt h
  · intro v b y h1 h2
    by_contra h3
    have h4 : 0 ≤ cmp y v := (hflip y v).mpr (by omega)
    have h5 : 0 ≤ cmp b v := htr b y v h2 h4
    have h6 : cmp v b ≤ 0 := (hflip b v).mp h5
    omega

/-- `foldBest_spec` instantiated with the `minOf` scan: strict improvement is
`cmp v best < 0`, dominance is `cmp best y ≤ 0`. -/
theorem minFold_spec (cmp : α → α → Int) (hcmp : LawfulCmp cmp)
    (x : α) (xs : List α) :
    ∃ l1 l2,
      x :: xs = l1 ++ (xs.foldl (fun best v => if cmp v best < 0 then v else best) x) :: l2 ∧
      (∀ y ∈ x :: xs,
        cmp (xs.foldl (fun best v => if cmp v best < 0 then v else best) x) y ≤ 0) ∧
      (∀ y ∈ l1,
        cmp (xs.foldl (fun best v => if cmp v best < 0 then v else best) x) y < 0) := by
  obtain ⟨hflip, htr⟩ := hcmp
  refine foldBest_spec (fun v b => cmp v b < 0) (fun b v => cmp b v ≤ 0) ?_ ?_ ?_ ?_ x xs
  · intro a
    exact le_of_eq (lawfulCmp_refl cmp ⟨hflip, htr⟩ a)
  · intro v b h
    exact (hflip v b).mp (by omega)
  · intro v b h
    exact le_of_lt h
  · intro v b y h1 h2
    by_contra h3
    have h4 : 0 ≤ cmp y b := (hflip y b).mpr h2
    have h5 : 0 ≤ cmp v b := htr v y b (by omega) h4
    omega

/-- C2: for every non-empty sequence of values of one Comparable type whose
`compareTo` obeys the three-way total-order contract, `maxOf` returns an
element `e` of the sequence with `e.compareTo(x) >= 0` for every element `x`,
and `minOf` returns an element `e` with `e.compareTo(x) <= 0` for every
element `x`. -/
theorem maxOf_minOf_select_extremum (cmp : α → α → Int) (hcmp : LawfulCmp cmp)
    (l : List α) (hne : l ≠ []) :
    (∃ e, maxOf cmp l = Except.ok e ∧ e ∈ l ∧ ∀ x ∈ l, 0 ≤ cmp e x) ∧
    (∃ e, minOf cmp l = Except.ok e ∧ e ∈ l ∧ ∀ x ∈ l, cmp e x ≤ 0) := by
  cases l with
  | nil => exact absurd rfl hne
  | cons x xs =>
    constructor
    · obtain ⟨l1, l2, heq, hdom, _⟩ := maxFold_spec cmp hcmp x xs
      exact ⟨_, rfl, by rw [heq]; simp, hdom⟩
    · obtain ⟨l1, l2, heq, hdom, _⟩ := minFold_spec cmp hcmp x xs
      exact ⟨_, rfl, by rw [heq]; simp, hdom⟩

/-- Witness for C2: the comparator `pairCmp` is lawful and on the concrete
list `[(2,0), (5,1), (3,2)]` the theorem yields the stated extrema facts. -/
theorem maxOf_minOf_select_extremum_witness :
    (∃ e, maxOf pairCmp [(2, 0), (5, 1), (3, 2)] = Except.ok e ∧
        e ∈ [((2 : Int), (0 : Int)), (5, 1), (3, 2)] ∧
        ∀ x ∈ [((2 : Int), (0 : Int)), (5, 1), (3, 2)], 0 ≤ pairCmp e x) ∧
    (∃ e, minOf pairCmp [(2, 0), (5, 1), (3, 2)] = Except.ok e ∧
        e ∈ [((2 : Int), (0 : Int)), (5, 1), (3, 2)] ∧
        ∀ x ∈ [((2 : Int), (0 : Int)), (5, 1), (3, 2)], pairCmp e x ≤ 0) :=
  maxOf_minOf_select_extremum pairCmp pairCmp_lawful _ (by decide)

/-- C3: called with zero arguments, `maxOf` and `minOf` fail with the
`IllegalArgument`-class error; neither returns a value. -/
theorem maxOf_minOf_empty_fails (α : Type) (cmp : α → α → Int) :
    maxOf cmp [] = Except.error JsError.illegalArgumentException ∧
    minOf cmp [] = Except.error JsError.illegalArgumentException ∧
    (∀ e, maxOf cmp [] ≠ Except.ok e) ∧ (∀ e, minOf cmp [] ≠ Except.ok e) :=
  ⟨rfl, rfl, fun e h => by simp [maxOf] at h, fun e h => by simp [minOf] at h⟩

/-- C4: with a lawful comparator, `maxOf` and `minOf` return the first
extremal element in input order: every element strictly before the returned
one in the input compares strictly worse, so no earlier element ties the
extremum; in particular `maxOf(a, b)` and `minOf(a, b)` with
`a.compareTo(b) == 0` return `a`, not `b`. -/
theorem maxOf_minOf_first_of_ties (cmp : α → α → Int) (hcmp : LawfulCmp cmp) :
    (∀ (l : List α) (e : α), maxOf cmp l = Except.ok e →
      ∃ l1 l2, l = l1 ++ e :: l2 ∧ ∀ y ∈ l1, 0 < cmp e y) ∧
    (∀ (l : List α) (e : α), minOf cmp l = Except.ok e →
      ∃ l1 l2, l = l1 ++ e :: l2 ∧ ∀ y ∈ l1, cmp e y < 0) ∧
    (∀ a b, cmp a b = 0 →
      maxOf cmp [a, b] = Except.ok a ∧ minOf cmp [a, b] = Except.ok a) := by
  refine ⟨?_, ?_, ?_⟩
  · intro l e h
    cases l with
    | nil => simp [maxOf] at h
    | cons x xs =>
      obtain ⟨l1, l2, heq, _, hstrict⟩ := maxFold_spec cmp hcmp x xs
      simp only [maxOf, Except.ok.injEq] at h
      subst h
      exact ⟨l1, l2, heq, hstrict⟩
  · intro l e h
    cases l with
    | nil => simp [minOf] at h
    | cons x xs =>
      obtain ⟨l1, l2, heq, _, hstrict⟩ := minFold_spec cmp hcmp x xs
      simp only [minOf, Except.ok.injEq] at h
      subst h
      exact ⟨l1, l2, heq, hstrict⟩
  · intro a b hab
    obtain ⟨hflip, htr⟩ := hcmp
    have h1 : cmp b a ≤ 0 := (hflip a b).mp (by omega)
    have h2 : 0 ≤ cmp b a := (hflip b a).mpr (by omega)
    constructor
    · show Except.ok (if 0 < cmp b a then b else a) = Except.ok a
      rw [if_neg (by omega)]
    · show Except.ok (if cmp b a < 0 then b else a) = Except.ok a
      rw [if_neg (by omega)]

/-- Witness for C4: two elements tied on the compared component but
distinguishable by the second; both selectors return the first. -/
theorem maxOf_minOf_first_of_ties_witness :
    maxOf pairCmp [(1, 100), (1, 200)] = Except.ok (1, 100) ∧
    minOf pairCmp [(1, 100), (1, 200)] = Except.ok (1, 100) :=
  (maxOf_minOf_first_of_ties pairCmp pairCmp_lawful).2.2 (1, 100) (1, 200) (by decide)

theorem addComparable_isEqualLaw (p : ProtoTable α) : isEqualLaw (addComparable p) :=
  ⟨_, rfl, fun x y => by simp [addComparable]⟩

theorem addComparableEx_false_laws (p : ProtoTable α) :
    isEqualLaw (addComparableEx p false) ∧ isEqualOrAfterLaw (addComparableEx p false) ∧
      isEqualOrBeforeLaw (addComparableEx p false) :=
  ⟨⟨_, rfl, fun x y => by simp [addComparableEx, addComparable]⟩,
   ⟨_, rfl, fun x y => by simp [addComparableEx, addComparable]⟩,
   ⟨_, rfl, fun x y => by simp [addComparableEx, addComparable]⟩⟩

theorem addComparableEx_true_laws (p : ProtoTable α) :
    isEqualOrAfterLaw (addComparableEx p true) ∧ isEqualOrBeforeLaw (addComparableEx p true) ∧
      (addComparableEx p true).isEqual = p.isEqual :=
  ⟨⟨_, rfl, fun x y => by simp [addComparableEx]⟩,
   ⟨_, rfl, fun x y => by simp [addComparableEx]⟩, rfl⟩

/-- C1: after `initCustom`, on every covered type the installed derived
predicates agree with the type's `compareTo`: `isEqual` holds exactly when
`compareTo == 0` (on the six `addComparable` types and the seven full-triple
`addComparableEx` types; the three carve-outs are excluded for `isEqual`),
`isEqualOrAfter` exactly when `compareTo >= 0` and `isEqualOrBefore` exactly
when `compareTo <= 0` (on all `addComparableEx` types, carve-outs included). -/
theorem initCustom_derived_predicate_laws (T : CoreTypes) (s : CoreState T) :
    (isEqualLaw (initCustom s).chronoUnit ∧ isEqualLaw (initCustom s).duration ∧
      isEqualLaw (initCustom s).zoneOffset ∧ isEqualLaw (initCustom s).dayOfWeek ∧
      isEqualLaw (initCustom s).month ∧ isEqualLaw (initCustom s).zoneOffsetTransition) ∧
    (isEqualLaw (initCustom s).instant ∧ isEqualOrAfterLaw (initCustom s).instant ∧
      isEqualOrBeforeLaw (initCustom s).instant) ∧
    (isEqualLaw (initCustom s).localDate.proto ∧
      isEqualOrAfterLaw (initCustom s).localDate.proto ∧
      isEqualOrBeforeLaw (initCustom s).localDate.proto) ∧
    (isEqualLaw (initCustom s).localDateTime.proto ∧
      isEqualOrAfterLaw (initCustom s).localDateTime.proto ∧
      isEqualOrBeforeLaw (initCustom s).localDateTime.proto) ∧
    (isEqualLaw (initCustom s).localTime.proto ∧
      isEqualOrAfterLaw (initCustom s).localTime.proto ∧
      isEqualOrBeforeLaw (initCustom s).localTime.proto) ∧
    (isEqualLaw (initCustom s).monthDay ∧ isEqualOrAfterLaw (initCustom s).monthDay ∧
      isEqualOrBeforeLaw (initCustom s).monthDay) ∧
    (isEqualLaw (initCustom s).year ∧ isEqualOrAfterLaw (initCustom s).year ∧
      isEqualOrBeforeLaw (initCustom s).year) ∧
    (isEqualLaw (initCustom s).yearMonth ∧ isEqualOrAfterLaw (initCustom s).yearMonth ∧
      isEqualOrBeforeLaw (initCustom s).yearMonth) ∧
    (isEqualOrAfterLaw (initCustom s).offsetDateTime ∧
      isEqualOrBeforeLaw (initCustom s).offsetDateTime) ∧
    (isEqualOrAfterLaw (initCustom s).offsetTime ∧
      isEqualOrBeforeLaw (initCustom s).offsetTime) ∧
    (isEqualOrAfterLaw (initCustom s).chronoZonedDateTime ∧
      isEqualOrBeforeLaw (initCustom s).chronoZonedDateTime) :=
  ⟨⟨addComparable_isEqualLaw _, addComparable_isEqualLaw _, addComparable_isEqualLaw _,
      addComparable_isEqualLaw _, addComparable_isEqualLaw _, addComparable_isEqualLaw _⟩,
    addComparableEx_false_laws _, addComparableEx_false_laws _, addComparableEx_false_laws _,
    addComparableEx_false_laws _, addComparableEx_false_laws _, addComparableEx_false_laws _,
    addComparableEx_false_laws _,
    ⟨(addComparableEx_true_laws _).1, (addComparableEx_true_laws _).2.1⟩,
    ⟨(addComparableEx_true_laws _).1, (addComparableEx_true_laws _).2.1⟩,
    ⟨(addComparableEx_true_laws _).1, (addComparableEx_true_laws _).2.1⟩⟩

/-- C5: after `initCustom`, on each of the three covered factories
(calendar date, time of day, zoned date-time) the attached
`ofEpochSecond(epochSecond, zone)` returns exactly
`ofInstant(Instant.ofEpochSecond(epochSecond), zone)`. -/
theorem initCustom_ofEpochSecond_delegates (T : CoreTypes) (s : CoreState T) :
    (∃ f, (initCustom s).localDate.ofEpochSecond = some f ∧ ∀ es z,
      f es z = (initCustom s).localDate.ofInstant ((initCustom s).instantOfEpochSecond es) z) ∧
    (∃ f, (initCustom s).localTime.ofEpochSecond = some f ∧ ∀ es z,
      f es z = (initCustom s).localTime.ofInstant ((initCustom s).instantOfEpochSecond es) z) ∧
    (∃ f, (initCustom s).zonedDateTime.ofEpochSecond = some f ∧ ∀ es z,
      f es z = (initCustom s).zonedDateTime.ofInstant ((initCustom s).instantOfEpochSecond es) z) :=
  ⟨⟨_, rfl, fun _ _ => rfl⟩, ⟨_, rfl, fun _ _ => rfl⟩, ⟨_, rfl, fun _ _ => rfl⟩⟩

/-- C6: `initCustom` neither attaches nor replaces `ofEpochSecond` on the
LocalDateTime factory: its `ofEpochSecond` slot (and its `ofInstant`) are the
very same functions after installation as before. -/
theorem initCustom_preserves_localDateTime_ofEpochSecond (T : CoreTypes) (s : CoreState T) :
    (initCustom s).localDateTime.ofEpochSecond = s.localDateTime.ofEpochSecond ∧
    (initCustom s).localDateTime.ofInstant = s.localDateTime.ofInstant :=
  ⟨rfl, rfl⟩

/-- C7: on the three carved-out types (OffsetDateTime, OffsetTime,
ChronoZonedDateTime) the patcher installs `isEqualOrAfter` and
`isEqualOrBefore` satisfying the compareTo-derived laws, but leaves the
`isEqual` slot exactly as it was — the type's own implementation stays. -/
theorem initCustom_carveouts_keep_isEqual (T : CoreTypes) (s : CoreState T) :
    ((initCustom s).offsetDateTime.isEqual = s.offsetDateTime.isEqual ∧
      isEqualOrAfterLaw (initCustom s).offsetDateTime ∧
      isEqualOrBeforeLaw (initCustom s).offsetDateTime) ∧
    ((initCustom s).offsetTime.isEqual = s.offsetTime.isEqual ∧
      isEqualOrAfterLaw (initCustom s).offsetTime ∧
      isEqualOrBeforeLaw (initCustom s).offsetTime) ∧
    ((initCustom s).chronoZonedDateTime.isEqual = s.chronoZonedDateTime.isEqual ∧
      isEqualOrAfterLaw (initCustom s).chronoZonedDateTime ∧
      isEqualOrBeforeLaw (initCustom s).chronoZonedDateTime) :=
  ⟨⟨rfl, (addComparableEx_true_laws _).1, (addComparableEx_true_laws _).2.1⟩,
   ⟨rfl, (addComparableEx_true_laws _).1, (addComparableEx_true_laws _).2.1⟩,
   ⟨rfl, (addComparableEx_true_laws _).1, (addComparableEx_true_laws _).2.1⟩⟩

/-- C9: running `initCustom` twice raises no error (it is a total function)
and is idempotent in effect: the whole resulting state — every installed
method on every covered type — is identical to the state after one run. -/
theorem initCustom_idempotent (T : CoreTypes) (s : CoreState T) :
    initCustom (initCustom s) = initCustom s := rfl

/-- C10: on any type patched by `addComparableEx`, the two installed
predicates are jointly exhaustive — for every pair at least one of
`isEqualOrAfter`, `isEqualOrBefore` holds — and both hold exactly when
`compareTo` returns 0. -/
theorem addComparableEx_exhaustive_predicates (p : ProtoTable α) (skip : Bool) :
    ∃ f g, (addComparableEx p skip).isEqualOrAfter = some f ∧
      (addComparableEx p skip).isEqualOrBefore = some g ∧
      ∀ x y, (f x y = true ∨ g x y = true) ∧
        ((f x y = true ∧ g x y = true) ↔ (addComparableEx p skip).compareTo x y = 0) := by
  cases skip <;>
    exact ⟨_, _, rfl, rfl, fun x y => by simp [addComparableEx, addComparable]; omega⟩

/-- A concrete instantiation of the class types for counterexamples: every
instance type is `Int`. -/
def intTypes : CoreTypes :=
  ⟨Int, Int, Int, Int, Int, Int, Int, Int, Int, Int, Int, Int, Int, Int, Int, Int, Int, Int⟩

/-- A prototype table with integer subtraction as `compareTo` and no derived
methods installed yet. -/
def bareProto : ProtoTable Int := ⟨fun a b => a - b, none, none, none⟩

/-- A factory with no `ofEpochSecond` installed yet. -/
def bareClass : TemporalClass Int Int Int := ⟨bareProto, fun i z => i + z, none⟩

/-- The concrete pre-initialization state. -/
def bareState : CoreState intTypes :=
  ⟨fun n => n, bareProto, bareClass, bareClass, bareClass, bareClass, bareProto, bareProto,
    bareProto, bareProto, bareProto, bareProto, bareProto, bareProto, bareProto, bareProto,
    bareProto, bareProto⟩

/-- C8 counterexample: at the concrete pre-initialization state, the
chrono-unit enumeration — a sixth type, distinct from the five listed in the
claim (duration, UTC offset, day-of-week, month-of-year,
zone-offset-transition) — also receives the derived `isEqual` without
receiving `isEqualOrAfter` or `isEqualOrBefore`, so the set of
isEqual-only types has six members, not five. -/
theorem initCustom_chronoUnit_isEqual_only :
    ((initCustom bareState).chronoUnit.isEqual).isSome = true ∧
    (initCustom bareState).chronoUnit.isEqualOrAfter = none ∧
    (initCustom bareState).chronoUnit.isEqualOrBefore = none :=
  ⟨rfl, rfl, rfl⟩

/-- C8 amended: exactly six value types — the chrono-unit enumeration plus
the claim's five (duration, UTC offset, day-of-week, month-of-year,
zone-offset-transition) — receive only the derived `isEqual` (their or-after
and or-before slots are untouched), and no type outside this set of six
receives `isEqual` without also receiving `isEqualOrAfter` and
`isEqualOrBefore`: the seven full-triple types receive all three, the three
carve-outs and the ZonedDateTime prototype receive no `isEqual` at all. -/
theorem initCustom_isEqual_only_six (T : CoreTypes) (s : CoreState T) :
    ((isEqualLaw (initCustom s).chronoUnit ∧
        (initCustom s).chronoUnit.isEqualOrAfter = s.chronoUnit.isEqualOrAfter ∧
        (initCustom s).chronoUnit.isEqualOrBefore = s.chronoUnit.isEqualOrBefore) ∧
      (isEqualLaw (initCustom s).duration ∧
        (initCustom s).duration.isEqualOrAfter = s.duration.isEqualOrAfter ∧
        (initCustom s).duration.isEqualOrBefore = s.duration.isEqualOrBefore) ∧
      (isEqualLaw (initCustom s).zoneOffset ∧
        (initCustom s).zoneOffset.isEqualOrAfter = s.zoneOffset.isEqualOrAfter ∧
        (initCustom s).zoneOffset.isEqualOrBefore = s.zoneOffset.isEqualOrBefore) ∧
      (isEqualLaw (initCustom s).dayOfWeek ∧
        (initCustom s).dayOfWeek.isEqualOrAfter = s.dayOfWeek.isEqualOrAfter ∧
        (initCustom s).dayOfWeek.isEqualOrBefore = s.dayOfWeek.isEqualOrBefore) ∧
      (isEqualLaw (initCustom s).month ∧
        (initCustom s).month.isEqualOrAfter = s.month.isEqualOrAfter ∧
        (initCustom s).month.isEqualOrBefore = s.month.isEqualOrBefore) ∧
      (isEqualLaw (initCustom s).zoneOffsetTransition ∧
        (initCustom s).zoneOffsetTransition.isEqualOrAfter = s.zoneOffsetTransition.isEqualOrAfter ∧
        (initCustom s).zoneOffsetTransition.isEqualOrBefore = s.zoneOffsetTransition.isEqualOrBefore)) ∧
    (((initCustom s).instant.isEqual.isSome = true ∧
        (initCustom s).instant.isEqualOrAfter.isSome = true ∧
        (initCustom s).instant.isEqualOrBefore.isSome = true) ∧
      ((initCustom s).localDate.proto.isEqual.isSome = true ∧
        (initCustom s).localDate.proto.isEqualOrAfter.isSome = true ∧
        (initCustom s).localDate.proto.isEqualOrBefore.isSome = true) ∧
      ((initCustom s).localDateTime.proto.isEqual.isSome = true ∧
        (initCustom s).localDateTime.proto.isEqualOrAfter.isSome = true ∧
        (initCustom s).localDateTime.proto.isEqualOrBefore.isSome = true) ∧
      ((initCustom s).localTime.proto.isEqual.isSome = true ∧
        (initCustom s).localTime.proto.isEqualOrAfter.isSome = true ∧
        (initCustom s).localTime.proto.isEqualOrBefore.isSome = true) ∧
      ((initCustom s).monthDay.isEqual.isSome = true ∧
        (initCustom s).monthDay.isEqualOrAfter.isSome = true ∧
        (initCustom s).monthDay.isEqualOrBefore.isSome = true) ∧
      ((initCustom s).year.isEqual.isSome = true ∧
        (initCustom s).year.isEqualOrAfter.isSome = true ∧
        (initCustom s).year.isEqualOrBefore.isSome = true) ∧
      ((initCustom s).yearMonth.isEqual.isSome = true ∧
        (initCustom s).yearMonth.isEqualOrAfter.isSome = true ∧
        (initCustom s).yearMonth.isEqualOrBefore.isSome = true)) ∧
    ((initCustom s).offsetDateTime.isEqual = s.offsetDateTime.isEqual ∧
      (initCustom s).offsetTime.isEqual = s.offsetTime.isEqual ∧
      (initCustom s).chronoZonedDateTime.isEqual = s.chronoZonedDateTime.isEqual ∧
      (initCustom s).zonedDateTime.proto = s.zonedDateTime.proto) :=
  ⟨⟨⟨addComparable_isEqualLaw _, rfl, rfl⟩, ⟨addComparable_isEqualLaw _, rfl, rfl⟩,
    ⟨addComparable_isEqualLaw _, rfl, rfl⟩, ⟨addComparable_isEqualLaw _, rfl, rfl⟩,
    ⟨addComparable_isEqualLaw _, rfl, rfl⟩, ⟨addComparable_isEqualLaw _, rfl, rfl⟩⟩,
   ⟨⟨rfl, rfl, rfl⟩, ⟨rfl, rfl, rfl⟩, ⟨rfl, rfl, rfl⟩, ⟨rfl, rfl, rfl⟩,
    ⟨rfl, rfl, rfl⟩, ⟨rfl, rfl, rfl⟩, ⟨rfl, rfl, rfl⟩⟩,
   ⟨rfl, rfl, rfl, rfl⟩⟩

end JsJoda
